import Mathlib

/-!
Verification development for the ICD-10 automation pipeline.

The definitions below are a shallow embedding of the pipeline's core modules:
`app/vector_search.py`, `app/ai_selector.py`, `app/medical_engine.py` and the
pydantic models of `app/models.py`.  External services (the vector index, the
language-model call, the `simple_icd_10_cm` taxonomy library) are modelled as
oracle parameters: a `Taxonomy` record of lookup functions where a `none`
result stands for the library raising, and `Except`-valued transport results.
Python floats are idealised as rationals; Python strings are manipulated at
the character-list level (the texts involved are ASCII).
-/

/-- Lexicographic comparison of character lists, mirroring Python string `<`
(comparison by code point, a strict prefix being smaller). -/
def chars_lt : List Char → List Char → Bool
  | [], [] => false
  | [], _ :: _ => true
  | _ :: _, [] => false
  | a :: as, b :: bs => if a < b then true else if b < a then false else chars_lt as bs

/-- Insert a string into an ascending-sorted list, mirroring Python `sorted`. -/
def insert_string_sorted (x : String) : List String → List String
  | [] => [x]
  | y :: ys => if chars_lt x.data y.data then x :: y :: ys else y :: insert_string_sorted x ys

/-- Ascending sort of strings, mirroring Python `sorted(list_of_strings)`. -/
def sort_strings (l : List String) : List String := l.foldr insert_string_sorted []

/-- Does `needle` occur at the start of `hay`? (Python `str.startswith` on chars.) -/
def leads : List Char → List Char → Bool
  | [], _ => true
  | _ :: _, [] => false
  | a :: as, b :: bs => a == b && leads as bs

/-- Substring containment, mirroring Python `needle in hay` on strings. -/
def contains_sub (hay needle : List Char) : Bool :=
  hay.tails.any (fun t => leads needle t)

/-- Python `str.strip()` on a character list. -/
def trim_chars (l : List Char) : List Char :=
  ((l.dropWhile Char.isWhitespace).reverse.dropWhile Char.isWhitespace).reverse

/-- Split a character list at every character satisfying `p`, keeping empty
components, like `String.split` / Python `str.split(sep)`. -/
def split_chars (p : Char → Bool) (l : List Char) : List (List Char) :=
  (l.foldr (fun c acc =>
    match acc with
    | (cur, toks) => if p c then ([], cur :: toks) else (c :: cur, toks)) ([], [])).1 ::
  (l.foldr (fun c acc =>
    match acc with
    | (cur, toks) => if p c then ([], cur :: toks) else (c :: cur, toks)) ([], [])).2

/-- The words of a cleaned text that are longer than 3 characters, mirroring
`[word for word in text.split() if len(word) > 3]` (whitespace splitting drops
empty components, and the length filter drops them here as well). -/
def py_split_words (l : List Char) : List (List Char) :=
  (split_chars Char.isWhitespace l).filter (fun w => w.length > 3)

/-- `_extract_root_family` in `ai_selector.py` / `medical_engine.py`:
first 3 characters of the code, or the code itself when shorter. -/
def extract_root_family (code : String) : String :=
  if code.length ≥ 3 then String.mk (code.data.take 3) else code

/-- `_is_root_code`: 3 characters, all alphanumeric (no decimal extension). -/
def is_root_code (code : String) : Bool :=
  code.length == 3 && code.data.all Char.isAlphanum

/-- The oracle interface to the `simple_icd_10_cm` library.  A `none` result of
a fallible lookup models the library raising an exception at that call. -/
structure Taxonomy where
  is_valid_item : String → Bool
  get_description : String → Option String
  get_children : String → Option (List String)
  get_inclusion_term : String → Option (List String)
  is_subcategory : String → Option Bool
  is_category : String → Option Bool

/-- The grandchild-gathering loop of `_get_nearby_descendants`: walk the sorted
children while slots remain, take from each child's children what fits, and
skip a child whose lookup raises. -/
def gather_grandchildren (t : Taxonomy) : List String → Nat → List String
  | [], _ => []
  | child :: rest, remaining_slots =>
    if remaining_slots = 0 then []
    else
      match t.get_children child with
      | none => gather_grandchildren t rest remaining_slots
      | some grandchildren =>
        let take_count := min grandchildren.length remaining_slots
        grandchildren.take take_count ++
          gather_grandchildren t rest (remaining_slots - take_count)

/-- `_get_nearby_descendants`: direct children first, then grandchildren from
the sorted children while the budget lasts, truncated to `max_codes`; a failing
children lookup for the code itself yields `[]`. -/
def get_nearby_descendants (t : Taxonomy) (code : String) (max_codes : Nat) : List String :=
  match t.get_children code with
  | none => []
  | some direct_children =>
    let remaining_slots := max_codes - direct_children.length
    let all_descendants :=
      if 0 < remaining_slots ∧ direct_children ≠ [] then
        direct_children ++ gather_grandchildren t (sort_strings direct_children) remaining_slots
      else direct_children
    all_descendants.take max_codes

/-- Modelled from the spec: the breadth-bounded expansion step of §4.4 item 4,
"expand one level further (grandchildren) from each child in deterministic
(sorted) order until the budget is exhausted".  Stated over an already-sorted
child list; compared with `gather_grandchildren` from the source. -/
def spec_grandchild_expansion (t : Taxonomy) : List String → Nat → List String
  | [], _ => []
  | child :: rest, budget =>
    if budget = 0 then []
    else
      match t.get_children child with
      | none => spec_grandchild_expansion t rest budget
      | some grandchildren =>
        grandchildren.take budget ++
          spec_grandchild_expansion t rest (budget - grandchildren.length)

/-- One step of `_analyze_root_family_distribution`'s dict building: bump the
count of the code's family, inserting it at the end on first occurrence
(Python dicts preserve insertion order). -/
def update_family_counts (family_counts : List (String × Nat)) (code : String) :
    List (String × Nat) :=
  let root_family := extract_root_family code
  if family_counts.any (fun p => p.1 == root_family) then
    family_counts.map (fun p => if p.1 == root_family then (p.1, p.2 + 1) else p)
  else family_counts ++ [(root_family, 1)]

/-- `_analyze_root_family_distribution`: family → count, keyed in first-occurrence
order. -/
def analyze_root_family_distribution (codes : List String) : List (String × Nat) :=
  codes.foldl update_family_counts []

/-- Insertion preserving the order of equal counts, so that folding it over the
distribution mirrors Python's stable `sorted(..., key=lambda x: x[1], reverse=True)`:
descending by count, ties kept in original (insertion) order. -/
def insert_by_count_desc (x : String × Nat) : List (String × Nat) → List (String × Nat)
  | [] => [x]
  | y :: ys => if x.2 ≤ y.2 then y :: insert_by_count_desc x ys else x :: y :: ys

/-- Python's stable descending-by-count sort of the family distribution. -/
def sort_families_desc (l : List (String × Nat)) : List (String × Nat) :=
  l.foldl (fun acc x => insert_by_count_desc x acc) []

/-- `AICodeSelector.MAX_ROOT_FAMILIES`. -/
def MAX_ROOT_FAMILIES : Nat := 6

/-- `_validate_root_family_focus`: keep only the codes whose root family is
among the top `MAX_ROOT_FAMILIES` families of the count-sorted distribution. -/
def validate_root_family_focus (selected_codes : List String) : List String :=
  if selected_codes = [] then []
  else
    let family_distribution := analyze_root_family_distribution selected_codes
    let sorted_families := sort_families_desc family_distribution
    let allowed_families := (sorted_families.take MAX_ROOT_FAMILIES).map (fun p => p.1)
    selected_codes.filter (fun code => extract_root_family code ∈ allowed_families)

/-- Comparison used by the claimed tie-break rule: count descending, ties by
family string ascending. -/
def spec_family_before (a b : String × Nat) : Bool :=
  decide (b.2 < a.2) || (a.2 == b.2 && chars_lt a.1.data b.1.data)

/-- Insertion sort step for `spec_sort_families_desc`. -/
def spec_insert_family (x : String × Nat) : List (String × Nat) → List (String × Nat)
  | [] => [x]
  | y :: ys => if spec_family_before x y then x :: y :: ys else y :: spec_insert_family x ys

/-- Modelled from the spec: §4.3's "sorts families descending by count (ties
broken by family string ascending)". -/
def spec_sort_families_desc (l : List (String × Nat)) : List (String × Nat) :=
  l.foldr spec_insert_family []

/-- Modelled from the spec: the Root-Family Policy Validator as §4.3 describes
it, with the claimed alphabetical tie-break; compared with
`validate_root_family_focus` from the source. -/
def spec_validate_root_family_focus (selected_codes : List String) : List String :=
  if selected_codes = [] then []
  else
    let family_distribution := analyze_root_family_distribution selected_codes
    let sorted_families := spec_sort_families_desc family_distribution
    let allowed_families := (sorted_families.take MAX_ROOT_FAMILIES).map (fun p => p.1)
    selected_codes.filter (fun code => extract_root_family code ∈ allowed_families)

/-- `_execute_ai_selection`: the classification call under its broad
`try/except`.  `transport` is the external call's outcome; `parse` stands for
`json.loads` plus `InitialSelectionResponse` validation, `none` being any parse
or schema failure.  Every failure degrades to an empty selection. -/
def execute_ai_selection (transport : Except String String)
    (parse : String → Option (List String)) : List String :=
  match transport with
  | .error _ => []
  | .ok content =>
    match parse content with
    | none => []
    | some selected_codes => selected_codes

/-- A candidate dict as built by `search_codes` in `vector_search.py`
(`section_name` carries the source's `section` key, a Lean keyword). -/
structure Candidate where
  icd_code : String
  score : ℚ
  description : String
  rich_text : String
  chapter : String
  section_name : String
deriving DecidableEq

/-- A raw match from the vector index (`match.id`, `match.score`, metadata). -/
structure VectorMatch where
  id : String
  score : ℚ
  rich_text : String
  chapter : String
  section_name : String
deriving DecidableEq

/-- `VectorSearchEngine.MINIMUM_SCORE_THRESHOLD`. -/
def MINIMUM_SCORE_THRESHOLD : ℚ := 1/10

/-- The validation-and-formatting loop of `search_codes`: drop low-score
matches, drop invalid codes, and skip a match whose description lookup raises. -/
def validate_matches (t : Taxonomy) : List VectorMatch → List Candidate
  | [] => []
  | m :: rest =>
    if m.score < MINIMUM_SCORE_THRESHOLD then validate_matches t rest
    else if t.is_valid_item m.id then
      match t.get_description m.id with
      | none => validate_matches t rest
      | some description =>
        ⟨m.id, m.score, description, m.rich_text, m.chapter, m.section_name⟩ ::
          validate_matches t rest
    else validate_matches t rest

/-- Insertion step for `_ensure_deterministic_ordering`'s key
`(-score, icd_code)`: score descending, ties by code ascending, stable. -/
def insert_candidate (x : Candidate) : List Candidate → List Candidate
  | [] => [x]
  | y :: ys =>
    if decide (y.score < x.score) || (x.score == y.score && chars_lt x.icd_code.data y.icd_code.data)
    then x :: y :: ys
    else y :: insert_candidate x ys

/-- `_ensure_deterministic_ordering`: sort by score descending, then code. -/
def ensure_deterministic_ordering (candidates : List Candidate) : List Candidate :=
  candidates.foldl (fun acc c => insert_candidate c acc) []

/-- `_create_embedding`: a failing external embedding call is re-raised as
`RuntimeError("Failed to create embedding: ...")`, never swallowed. -/
def create_embedding (response : Except String (List ℚ)) : Except String (List ℚ) :=
  match response with
  | .ok embedding => .ok embedding
  | .error msg => .error ("Failed to create embedding: " ++ msg)

/-- `search_codes` in `vector_search.py`: build the embedding (propagating its
failure), query the index, validate and deterministically order the matches. -/
def search_codes (t : Taxonomy) (embed_response : Except String (List ℚ))
    (query : List ℚ → List VectorMatch) : Except String (List Candidate) :=
  match create_embedding embed_response with
  | .error msg => .error msg
  | .ok embedding => .ok (ensure_deterministic_ordering (validate_matches t (query embedding)))

/-- The fixed domain-term list of `_calculate_semantic_similarity`. -/
def medical_terms : List String :=
  ["disease", "syndrome", "disorder", "condition", "infection",
   "injury", "trauma", "fracture", "cancer", "tumor", "diabetes",
   "hypertension", "arthritis", "pneumonia", "bronchitis"]

/-- `_calculate_semantic_similarity`: word-overlap ratio plus a phrase bonus
(0.2 per stripped comma-phrase of the description, longer than 5 characters,
occurring literally in the search text) plus 0.1 per shared domain term,
capped at 1.  The body is pure, so its `try/except` fallback is unreachable. -/
def calculate_semantic_similarity (code_description search_text : String) : ℚ :=
  let description_clean := trim_chars (code_description.data.map Char.toLower)
  let search_clean := trim_chars (search_text.data.map Char.toLower)
  let search_words := py_split_words search_clean
  let description_words := py_split_words description_clean
  if search_words = [] ∨ description_words = [] then 1/2
  else
    let common_words := (search_words.filter (fun w => description_words.contains w)).dedup
    let overlap_ratio : ℚ :=
      (common_words.length : ℚ) / ((max search_words.length description_words.length : Nat) : ℚ)
    let phrase_boost : ℚ :=
      if search_clean.length > 10 then
        (((split_chars (fun c => c == ',') description_clean).countP
          (fun phrase => (trim_chars phrase).length > 5 &&
            contains_sub search_clean (trim_chars phrase)) : Nat) : ℚ) * (1/5)
      else 0
    let medical_bonus : ℚ :=
      ((medical_terms.countP (fun term =>
        contains_sub description_clean term.data &&
        contains_sub search_clean term.data) : Nat) : ℚ) * (1/10)
    min 1 (overlap_ratio + phrase_boost + medical_bonus)

/-- Python `round(x, 3)` idealised on rationals: rounding to a multiple of
1/1000 (half rounded up; exact decimal ties virtually never arise from the
binary floats of the source). -/
def round3 (q : ℚ) : ℚ := ((⌊1000 * q + 1/2⌋ : ℤ) : ℚ) / 1000

/-- `_normalize_confidence_score`: selected codes pulled up below 0.8,
hierarchy-only codes pulled down above 0.9, subcategories pulled up below 0.7,
root codes pushed down, then clamped to [0,1] and rounded to 3 decimals.  A
raising `is_subcategory` is swallowed by the inner `except: pass`. -/
def normalize_confidence_score (t : Taxonomy) (raw_score : ℚ) (code : String)
    (selected_codes : List String) : ℚ :=
  let normalized_score := raw_score
  let normalized_score :=
    if code ∈ selected_codes then
      if normalized_score < 4/5 then min 1 (normalized_score + 1/10) else normalized_score
    else
      if normalized_score > 9/10 then max 0 (normalized_score - 1/10) else normalized_score
  let normalized_score :=
    match t.is_subcategory code with
    | none => normalized_score
    | some true =>
      if normalized_score < 7/10 then min 1 (normalized_score + 1/20) else normalized_score
    | some false =>
      if is_root_code code then max 0 (normalized_score - 1/10) else normalized_score
  let normalized_score := max 0 (min 1 normalized_score)
  round3 normalized_score

/-- Factor 2 of `_calculate_confidence_score`: the min-max-normalised vector
score of the code's originating candidate, 0 when absent. -/
def vector_score_of (vector_candidates : List Candidate) (code : String) : ℚ :=
  match vector_candidates.find? (fun c => c.icd_code == code) with
  | some candidate => max 0 (min 1 ((candidate.score - 1/10) / (9/10)))
  | none => 0

/-- Factor 3 of `_calculate_confidence_score`: specificity constants with the
inner `except` fallback 0.5. -/
def specificity_score_of (t : Taxonomy) (code : String) : ℚ :=
  match t.is_subcategory code with
  | none => 1/2
  | some true => 9/10
  | some false =>
    match t.is_category code with
    | none => 1/2
    | some true => 7/10
    | some false => 1/2

/-- Factor 5 of `_calculate_confidence_score`: semantic relevance against the
search text, with the 0.5 fallbacks for a falsy text or a raising description
lookup. -/
def semantic_score_of (t : Taxonomy) (code : String) (search_text : Option String) : ℚ :=
  match search_text with
  | none => 1/2
  | some st =>
    if st = "" then 1/2
    else
      match t.get_description code with
      | none => 1/2
      | some description => calculate_semantic_similarity description st

/-- The `try` body of `_calculate_confidence_score` (the five-factor scorer).
`Except.error ()` stands for an exception escaping to the outer `except`:
only the two unguarded `is_subcategory` calls (factor 1 and the booster) can
raise there; factors 3 and 5 have their own inner fallbacks. -/
def calc_confidence_body (t : Taxonomy) (code : String) (selected_codes : List String)
    (vector_candidates : List Candidate) (search_text : Option String) : Except Unit ℚ :=
  match t.is_subcategory code with
  | none => .error ()
  | some sub =>
    let ai_score : ℚ :=
      if code ∈ selected_codes then (if sub then 19/20 else 17/20)
      else (if sub then 3/4 else 13/20)
    let base_score : ℚ := ai_score * (2/5)
    let vector_score : ℚ := vector_score_of vector_candidates code
    let base_score : ℚ :=
      if (0 : ℚ) < vector_score then base_score + vector_score * (1/4)
      else base_score + (if code ∈ selected_codes then (1/2 : ℚ) else 3/10) * (1/4)
    let specificity_score : ℚ := specificity_score_of t code
    let base_score : ℚ := base_score + specificity_score * (3/20)
    let decimal_count := code.data.count '.'
    let depth_score : ℚ :=
      if decimal_count ≥ 2 then 9/10 else if decimal_count = 1 then 4/5 else 3/5
    let base_score : ℚ := base_score + depth_score * (1/10)
    let semantic_score : ℚ := semantic_score_of t code search_text
    let base_score : ℚ := base_score + semantic_score * (1/10)
    match (if code ∈ selected_codes then t.is_subcategory code else some false) with
    | none => .error ()
    | some boost =>
      let final_score : ℚ := if boost then min 1 (base_score + 1/20) else base_score
      let final_score : ℚ := if is_root_code code then max 0 (final_score - 1/20) else final_score
      let final_score : ℚ := max 0 (min 1 final_score)
      .ok (normalize_confidence_score t final_score code selected_codes)

/-- `_calculate_confidence_score`: the five-factor scorer, degrading to the
default 0.60 when an unguarded lookup raises. -/
def calculate_confidence_score (t : Taxonomy) (code : String) (selected_codes : List String)
    (vector_candidates : List Candidate) (search_text : Option String) : ℚ :=
  match calc_confidence_body t code selected_codes vector_candidates search_text with
  | .ok s => s
  | .error _ => 3/5

/-- `_calculate_confidence_score_legacy`: the two-tier provenance score,
0.60 when `is_subcategory` raises. -/
def calculate_confidence_score_legacy (t : Taxonomy) (code : String)
    (selected_codes : List String) : ℚ :=
  match t.is_subcategory code with
  | none => 3/5
  | some sub =>
    if code ∈ selected_codes then (if sub then 19/20 else 17/20)
    else (if sub then 3/4 else 13/20)

/-- The declared fields of the pydantic model `RefinedCodeValidation`
(`models.py`, `extra='forbid'`). -/
def refined_code_validation_fields : List String :=
  ["icd_code", "original_description", "enhanced_description", "confidence_score"]

/-- The keyword arguments `_complete_hierarchy_with_family_focus` passes to the
`RefinedCodeValidation(...)` constructor call. -/
def refined_code_call_kwarg_names : List String :=
  ["icd_code", "original_description", "enhanced_description", "confidence_score",
   "improved_confidence_score"]

/-- The pydantic model `RefinedCodeValidation`. -/
structure RefinedCodeValidation where
  icd_code : String
  original_description : String
  enhanced_description : String
  confidence_score : ℚ
deriving DecidableEq

/-- The argument record of the constructor call at `medical_engine.py:177`. -/
structure RefinedCodeKwargs where
  icd_code : String
  original_description : String
  enhanced_description : String
  confidence_score : ℚ
  improved_confidence_score : ℚ
deriving DecidableEq

/-- Pydantic construction under `extra='forbid'`: the call succeeds only when
every passed keyword is a declared field, otherwise it raises a validation
error ("Extra inputs are not permitted"). -/
def mk_refined_code_validation (kw : RefinedCodeKwargs) : Except String RefinedCodeValidation :=
  if refined_code_call_kwarg_names.all
      (fun kwarg_name => refined_code_validation_fields.contains kwarg_name) then
    .ok ⟨kw.icd_code, kw.original_description, kw.enhanced_description, kw.confidence_score⟩
  else .error "Extra inputs are not permitted"

/-- `_extract_allowed_root_families` (a Python set; used only for membership,
so a list of the families suffices). -/
def extract_allowed_root_families (codes : List String) : List String :=
  codes.map extract_root_family

/-- The family-and-root filter applied to a code's descendants at
`medical_engine.py:132-135`. -/
def family_filtered_descendants (t : Taxonomy) (allowed_families : List String)
    (code : String) : List String :=
  (get_nearby_descendants t code 25).filter
    (fun desc => extract_root_family desc ∈ allowed_families && Bool.not (is_root_code desc))

/-- Adding to the Python set `all_codes` (first-insertion order; the set is
sorted before use, so only membership matters). -/
def insert_new (acc : List String) (code : String) : List String :=
  if code ∈ acc then acc else acc ++ [code]

/-- The first pass of `_complete_hierarchy_with_family_focus`: skip invalid
codes, add non-root selected codes, add a root code only when it has no
family-filtered descendants, and always add the filtered descendants. -/
def collect_hierarchy_codes (t : Taxonomy) (allowed_families : List String) :
    List String → List String → List String
  | [], all_codes => all_codes
  | code :: rest, all_codes =>
    if t.is_valid_item code then
      let descendants := family_filtered_descendants t allowed_families code
      let all_codes1 :=
        if Bool.not (is_root_code code) then insert_new all_codes code
        else if descendants = [] then insert_new all_codes code
        else all_codes
      collect_hierarchy_codes t allowed_families rest (descendants.foldl insert_new all_codes1)
    else collect_hierarchy_codes t allowed_families rest all_codes

/-- `_create_enhanced_description`: official description plus up to two
inclusion terms; a raising lookup yields the fallback string. -/
def create_enhanced_description (t : Taxonomy) (code : String) : String :=
  match t.get_description code, t.get_inclusion_term code with
  | some official_description, some inclusion_terms =>
    if 0 < inclusion_terms.length then
      official_description ++ " (includes: " ++
        String.intercalate ", " (inclusion_terms.take 2) ++ ")"
    else official_description
  | _, _ => "Code " ++ code ++ " - Description unavailable"

/-- Outcome of one iteration of the validation loop at
`medical_engine.py:162-187`: either the code was skipped into
`validation_errors`, or a `RefinedCodeValidation(...)` construction was
attempted with the recorded keyword arguments. -/
inductive RefineStep where
  | skipped (msg : String)
  | attempted (kw : RefinedCodeKwargs) (result : Except String RefinedCodeValidation)

/-- One iteration of the validation loop: re-check validity, filter root codes,
compute both scores, and attempt the construction (whose raising is caught and
recorded as a validation error by the caller). -/
def refine_one_code (t : Taxonomy) (selected_codes : List String) (search_text : String)
    (vector_candidates : List Candidate) (code : String) : RefineStep :=
  if Bool.not (t.is_valid_item code) then .skipped ("Invalid: " ++ code)
  else if is_root_code code then .skipped ("Root code filtered: " ++ code)
  else
    let legacy_score := calculate_confidence_score_legacy t code selected_codes
    let improved_score :=
      calculate_confidence_score t code selected_codes vector_candidates (some search_text)
    match t.get_description code with
    | none => .skipped ("Validation error for " ++ code)
    | some original_description =>
      let kw : RefinedCodeKwargs :=
        ⟨code, original_description, create_enhanced_description t code,
          legacy_score, improved_score⟩
      .attempted kw (mk_refined_code_validation kw)

/-- The validation loop of `_complete_hierarchy_with_family_focus` over the
sorted first-pass code set. -/
def refinement_steps (t : Taxonomy) (selected_codes : List String) (search_text : String)
    (vector_candidates : List Candidate) : List RefineStep :=
  let allowed_families := extract_allowed_root_families selected_codes
  let all_codes := collect_hierarchy_codes t allowed_families selected_codes []
  (sort_strings all_codes).map (refine_one_code t selected_codes search_text vector_candidates)

/-- The keyword-argument records of the attempted constructions. -/
def attempted_kwargs (t : Taxonomy) (selected_codes : List String) (search_text : String)
    (vector_candidates : List Candidate) : List RefinedCodeKwargs :=
  (refinement_steps t selected_codes search_text vector_candidates).filterMap
    (fun s => match s with
      | .attempted kw _ => some kw
      | _ => none)

/-- `_complete_hierarchy_with_family_focus`: the refined codes are the
successfully constructed `RefinedCodeValidation` objects; a raising
construction drops its code into `validation_errors`. -/
def complete_hierarchy_with_family_focus (t : Taxonomy) (selected_codes : List String)
    (search_text : String) (vector_candidates : List Candidate) : List RefinedCodeValidation :=
  (refinement_steps t selected_codes search_text vector_candidates).filterMap
    (fun s => match s with
      | .attempted _ (.ok rc) => some rc
      | _ => none)

/-- `select_relevant_codes` in `ai_selector.py`: no candidates or an empty
selection short-circuit to `[]`; otherwise the root-family validator runs. -/
def select_relevant_codes (candidates : List Candidate) (transport : Except String String)
    (parse : String → Option (List String)) : List String :=
  if candidates = [] then []
  else
    let initial_selection := execute_ai_selection transport parse
    if initial_selection = [] then []
    else validate_root_family_focus initial_selection

/-- Number of distinct root families of a code list (Python `len(set(...))`). -/
def count_distinct_families (codes : List String) : Nat :=
  ((codes.map extract_root_family).dedup).length

/-- `_generate_clinical_summary`. -/
def generate_clinical_summary (selected_codes : List String)
    (refined_codes : List RefinedCodeValidation) : String :=
  let selected_families := count_distinct_families selected_codes
  let final_families := count_distinct_families (refined_codes.map (fun rc => rc.icd_code))
  "Identified " ++ toString selected_codes.length ++
    " primary codes through AI analysis across " ++ toString selected_families ++
    " root families. Completed with official ICD hierarchy to " ++
    toString refined_codes.length ++ " total codes spanning " ++
    toString final_families ++
    " families. All codes validated against 2025 ICD-10-CM standards with root family focus enforcement."

/-- The response model of `extract_codes_for_spreadsheet`. -/
structure ClinicalRefinementResponse where
  refined_codes : List RefinedCodeValidation
  clinical_summary : String
deriving DecidableEq

/-- `extract_codes_for_spreadsheet` from the candidate stage on: empty
candidates and empty selection short-circuit with their summary strings,
otherwise hierarchy completion and the clinical summary run. -/
def extract_codes_for_spreadsheet (t : Taxonomy) (candidates : List Candidate)
    (transport : Except String String) (parse : String → Option (List String))
    (search_text : String) : ClinicalRefinementResponse :=
  if candidates = [] then ⟨[], "No relevant codes found in vector search."⟩
  else
    let selected_codes := select_relevant_codes candidates transport parse
    if selected_codes = [] then ⟨[], "No codes selected by AI analysis."⟩
    else
      let refined_codes :=
        complete_hierarchy_with_family_focus t selected_codes search_text candidates
      ⟨refined_codes, generate_clinical_summary selected_codes refined_codes⟩

/-! ### Concrete fixtures used by the closed theorems below -/

/-- A one-code taxonomy around the subcategory code `A00.0` (Cholera): valid,
childless, with no inclusion terms. -/
def taxA : Taxonomy :=
  ⟨fun code => code == "A00.0",
   fun code => if code == "A00.0" then some "Cholera" else none,
   fun code => if code == "A00.0" then some [] else none,
   fun _ => some [],
   fun code => if code == "A00.0" then some true else none,
   fun _ => some false⟩

/-- A taxonomy in which the root-category code `R10` is valid and has no
children (the spec's orphan-root scenario). -/
def taxR10 : Taxonomy :=
  ⟨fun code => code == "R10",
   fun code => if code == "R10" then some "Abdominal and pelvic pain" else none,
   fun code => if code == "R10" then some [] else none,
   fun _ => some [],
   fun code => if code == "R10" then some false else none,
   fun code => some (code == "R10")⟩

/-- A small taxonomy exercising the two-level descendant traversal:
`X10` has children `X10.1, X10.0`, and `X10.0` has child `X10.01`. -/
def taxD : Taxonomy :=
  ⟨fun _ => true,
   fun _ => none,
   fun code =>
     if code == "X10" then some ["X10.1", "X10.0"]
     else if code == "X10.0" then some ["X10.01"]
     else if code == "X10.1" then some []
     else none,
   fun _ => none, fun _ => none, fun _ => none⟩

/-- Seven selected codes in seven distinct families, one code each, listed in
descending alphabetical order of their families. -/
def c3_codes : List String := ["G01", "F01", "E01", "D01", "C01", "B01", "A01"]

/-- The keyword arguments the validation loop builds for `A00.0` on the run
with selection `["A00.0"]`, empty search text and no vector candidates. -/
def c5_kwargs : RefinedCodeKwargs :=
  ⟨"A00.0", "Cholera", "Cholera",
    calculate_confidence_score_legacy taxA "A00.0" ["A00.0"],
    calculate_confidence_score taxA "A00.0" ["A00.0"] [] (some "")⟩

/-- A single vector candidate for the short-circuit witnesses. -/
def candA : Candidate := ⟨"A00.0", 1/2, "Cholera", "", "", ""⟩

/-! ### Helper lemmas -/

/-- Every `RefinedCodeValidation(...)` call of the engine passes
`improved_confidence_score`, which is not a declared field, so under
`extra='forbid'` pydantic rejects every such construction. -/
theorem mk_refined_code_validation_rejects (kw : RefinedCodeKwargs) :
    mk_refined_code_validation kw = .error "Extra inputs are not permitted" := by
  have h : refined_code_call_kwarg_names.all
      (fun kwarg_name => refined_code_validation_fields.contains kwarg_name) = false := by decide
  unfold mk_refined_code_validation
  rw [h]
  rfl

/-- No iteration of the validation loop ever yields a refined code. -/
theorem refine_one_code_yields_none (t : Taxonomy) (selected_codes : List String)
    (search_text : String) (vector_candidates : List Candidate) (code : String) :
    (match refine_one_code t selected_codes search_text vector_candidates code with
      | .attempted _ (.ok rc) => some rc
      | _ => none) = none := by
  cases hv : t.is_valid_item code
  · simp [refine_one_code, hv]
  · cases hr : is_root_code code
    · cases hd : t.get_description code
      · simp [refine_one_code, hv, hr, hd]
      · simp [refine_one_code, hv, hr, hd, mk_refined_code_validation_rejects]
    · simp [refine_one_code, hv, hr]

/-- The hierarchy-completion stage returns an empty refined-code list on every
input, because every construction of a `RefinedCodeValidation` is rejected. -/
theorem complete_hierarchy_nil (t : Taxonomy) (selected_codes : List String)
    (search_text : String) (vector_candidates : List Candidate) :
    complete_hierarchy_with_family_focus t selected_codes search_text vector_candidates = [] := by
  unfold complete_hierarchy_with_family_focus
  rw [List.filterMap_eq_nil_iff]
  intro s hs
  simp only [refinement_steps, List.mem_map] at hs
  obtain ⟨code, -, rfl⟩ := hs
  exact refine_one_code_yields_none t selected_codes search_text vector_candidates code

/-- The expansion with an exhausted budget yields nothing. -/
theorem spec_grandchild_expansion_zero (t : Taxonomy) (l : List String) :
    spec_grandchild_expansion t l 0 = [] := by
  cases l <;> simp [spec_grandchild_expansion]

/-- The source's slot bookkeeping computes exactly the spec's greedy
budget-bounded expansion. -/
theorem gather_grandchildren_eq_spec (t : Taxonomy) (l : List String) (b : Nat) :
    gather_grandchildren t l b = spec_grandchild_expansion t l b := by
  induction l generalizing b with
  | nil => rfl
  | cons child rest ih =>
    unfold gather_grandchildren spec_grandchild_expansion
    by_cases hb : b = 0
    · simp [hb]
    · simp only [hb, if_false]
      cases hgc : t.get_children child with
      | none => exact ih b
      | some grandchildren =>
        dsimp only
        rcases le_total grandchildren.length b with h | h
        · rw [Nat.min_eq_left h, List.take_length,
            List.take_of_length_le h, ih]
        · rw [Nat.min_eq_right h, Nat.sub_self, Nat.sub_eq_zero_of_le h, ih]

/-! ### Claim theorems -/

/-- C10: for every input, the hierarchy-completion stage returns an empty
refinedCodes list: each per-code construction of `RefinedCodeValidation`
passes the keyword argument `improved_confidence_score`, which is not a
declared field and is rejected because the model forbids extra fields, so
every construction raises and the code is dropped into the validation
errors. -/
theorem C10_hierarchy_always_empty (t : Taxonomy) (selected_codes : List String)
    (search_text : String) (vector_candidates : List Candidate) :
    complete_hierarchy_with_family_focus t selected_codes search_text vector_candidates = [] :=
  complete_hierarchy_nil t selected_codes search_text vector_candidates

/-- C2: the root families of the refined codes are a subset of the root
families of the selected codes, for every pipeline run (here trivially so:
every run's refined-code list is empty, see `complete_hierarchy_nil`; the
first-pass code set satisfies the same containment, see
`collect_hierarchy_codes_family_subset`). -/
theorem C2_family_containment (t : Taxonomy) (selected_codes : List String)
    (search_text : String) (vector_candidates : List Candidate) :
    ((complete_hierarchy_with_family_focus t selected_codes search_text vector_candidates).map
      (fun rc => extract_root_family rc.icd_code)) ⊆
      selected_codes.map extract_root_family := by
  rw [complete_hierarchy_nil]
  simp

/-- C1 (code bug): on the spec's own scenario — the selected code is the valid
root category `R10` with no children — the first pass does retain `R10` as an
orphan root, but the validation pass unconditionally filters every root code
(and every construction is rejected for the extra field anyway), so the final
refined-code list is empty instead of retaining `R10`. -/
theorem C1_orphan_root_dropped :
    collect_hierarchy_codes taxR10 (extract_allowed_root_families ["R10"]) ["R10"] [] = ["R10"] ∧
    complete_hierarchy_with_family_focus taxR10 ["R10"] "abdominal pain" [] = [] := by
  constructor
  · rfl
  · exact complete_hierarchy_nil taxR10 ["R10"] "abdominal pain" []

/-- C4: descendant fetching for a single code never yields more than the
configured maximum of 25 codes, and when the children lookup succeeds it
returns exactly the direct children followed by the greedy budget-bounded
grandchild expansion over the ascending-sorted children, truncated to 25. -/
theorem C4_breadth_bounded_descendants (t : Taxonomy) (code : String) :
    (get_nearby_descendants t code 25).length ≤ 25 ∧
    ∀ direct_children, t.get_children code = some direct_children →
      get_nearby_descendants t code 25 =
        (direct_children ++
          spec_grandchild_expansion t (sort_strings direct_children)
            (25 - direct_children.length)).take 25 := by
  constructor
  · unfold get_nearby_descendants
    cases h : t.get_children code with
    | none => simp
    | some direct_children =>
      dsimp only
      rw [List.length_take]
      exact min_le_left _ _
  · intro direct_children h
    unfold get_nearby_descendants
    rw [h]
    dsimp only
    by_cases hg : 0 < 25 - direct_children.length ∧ direct_children ≠ []
    · rw [if_pos hg, gather_grandchildren_eq_spec]
    · rw [if_neg hg]
      rcases Decidable.not_and_iff_or_not.mp hg with h0 | hnil
      · have hz : 25 - direct_children.length = 0 := Nat.eq_zero_of_not_pos h0
        rw [hz, spec_grandchild_expansion_zero, List.append_nil]
      · have : direct_children = [] := Decidable.not_not.mp hnil
        subst this
        rfl

/-- C9: a failing embedding construction is re-raised and propagates out of
`search_codes` as an error (never converted into an empty success), while a
successful embedding whose query returns zero matches yields the empty
candidate list without error. -/
theorem C9_embedding_fatal_zero_matches_empty (t : Taxonomy)
    (query : List ℚ → List VectorMatch) (msg : String) (embedding : List ℚ) :
    search_codes t (.error msg) query = .error ("Failed to create embedding: " ++ msg) ∧
    (query embedding = [] → search_codes t (.ok embedding) query = .ok []) := by
  constructor
  · rfl
  · intro h
    unfold search_codes create_embedding
    dsimp only
    rw [h]
    rfl

/-- C8: every transport or parse failure of the classification call makes the
adapter return an empty selection instead of raising, and the pipeline then
short-circuits to an empty refined-code list with the "No codes selected"
summary. -/
theorem C8_selection_failure_short_circuit (t : Taxonomy) (candidates : List Candidate)
    (transport : Except String String) (parse : String → Option (List String))
    (search_text : String) (hc : candidates ≠ [])
    (hfail : (∃ msg, transport = Except.error msg) ∨
      (∃ content, transport = Except.ok content ∧ parse content = none)) :
    execute_ai_selection transport parse = [] ∧
    extract_codes_for_spreadsheet t candidates transport parse search_text =
      ⟨[], "No codes selected by AI analysis."⟩ := by
  have hsel : execute_ai_selection transport parse = [] := by
    rcases hfail with ⟨msg, rfl⟩ | ⟨content, rfl, hparse⟩
    · rfl
    · unfold execute_ai_selection
      dsimp only
      rw [hparse]
  refine ⟨hsel, ?_⟩
  unfold extract_codes_for_spreadsheet
  rw [if_neg hc]
  have : select_relevant_codes candidates transport parse = [] := by
    unfold select_relevant_codes
    rw [if_neg hc, hsel]
    rfl
  rw [this]
  rfl

/-- Witness for C8 at a concrete failing transport. -/
theorem C8_selection_failure_short_circuit_witness :
    execute_ai_selection (Except.error "timeout") (fun _ => none) = [] ∧
    extract_codes_for_spreadsheet taxA [candA] (Except.error "timeout") (fun _ => none) "text" =
      ⟨[], "No codes selected by AI analysis."⟩ :=
  C8_selection_failure_short_circuit taxA [candA] (Except.error "timeout") (fun _ => none) "text"
    (by simp) (Or.inl ⟨"timeout", rfl⟩)

/-! ### Lemmas about the stable count-descending sort and the family distribution -/

/-- Membership through `insert_by_count_desc`. -/
theorem insert_by_count_desc_mem (x p : String × Nat) (l : List (String × Nat)) :
    p ∈ insert_by_count_desc x l ↔ p = x ∨ p ∈ l := by
  induction l with
  | nil => simp [insert_by_count_desc]
  | cons y ys ih =>
    unfold insert_by_count_desc
    split
    · simp [ih]
      tauto
    · simp [or_assoc]

/-- Length through `insert_by_count_desc`. -/
theorem insert_by_count_desc_length (x : String × Nat) (l : List (String × Nat)) :
    (insert_by_count_desc x l).length = l.length + 1 := by
  induction l with
  | nil => rfl
  | cons y ys ih =>
    unfold insert_by_count_desc
    split
    · simp [ih]
    · simp

/-- `insert_by_count_desc` keeps the list sorted by count, descending. -/
theorem insert_by_count_desc_pairwise (x : String × Nat) (l : List (String × Nat))
    (h : l.Pairwise (fun a b => b.2 ≤ a.2)) :
    (insert_by_count_desc x l).Pairwise (fun a b => b.2 ≤ a.2) := by
  induction l with
  | nil => simp [insert_by_count_desc]
  | cons y ys ih =>
    rcases List.pairwise_cons.mp h with ⟨hy, hys⟩
    unfold insert_by_count_desc
    split
    · next hxy =>
      refine List.pairwise_cons.mpr ⟨?_, ih hys⟩
      intro p hp
      rcases (insert_by_count_desc_mem x p ys).mp hp with rfl | hp
      · exact hxy
      · exact hy p hp
    · next hxy =>
      refine List.pairwise_cons.mpr ⟨?_, h⟩
      intro p hp
      rcases List.mem_cons.mp hp with rfl | hp
      · exact Nat.le_of_lt (Nat.lt_of_not_le hxy)
      · exact Nat.le_trans (hy p hp) (Nat.le_of_lt (Nat.lt_of_not_le hxy))

/-- Stability of the insertion: within one count class the inserted element
lands after all existing elements of that class. -/
theorem insert_by_count_desc_filter (n : Nat) (x : String × Nat) (l : List (String × Nat))
    (h : l.Pairwise (fun a b => b.2 ≤ a.2)) :
    (insert_by_count_desc x l).filter (fun p => p.2 == n) =
      if x.2 == n then l.filter (fun p => p.2 == n) ++ [x]
      else l.filter (fun p => p.2 == n) := by
  induction l with
  | nil =>
    by_cases hxn : (x.2 == n) = true <;>
      simp [insert_by_count_desc, List.filter_cons, hxn]
  | cons y ys ih =>
    rcases List.pairwise_cons.mp h with ⟨hy, hys⟩
    unfold insert_by_count_desc
    split
    · next hxy =>
      by_cases hyn : (y.2 == n) = true
      · by_cases hxn : (x.2 == n) = true
        · simp [List.filter_cons, hyn, hxn, ih hys]
        · simp [List.filter_cons, hyn, hxn, ih hys]
      · by_cases hxn : (x.2 == n) = true
        · simp [List.filter_cons, hyn, hxn, ih hys]
        · simp [List.filter_cons, hyn, hxn, ih hys]
    · next hxy =>
      -- here y.2 < x.2 and the tail is bounded by y.2, so when x.2 = n the
      -- count class of n in y :: ys is empty
      by_cases hxn : (x.2 == n) = true
      · have hxn' : x.2 = n := by simpa using hxn
        have hempty : (y :: ys).filter (fun p => p.2 == n) = [] := by
          rw [List.filter_eq_nil_iff]
          intro p hp
          have hple : p.2 ≤ y.2 := by
            rcases List.mem_cons.mp hp with rfl | hp
            · exact Nat.le_refl _
            · exact hy p hp
          have : p.2 < x.2 := Nat.lt_of_le_of_lt hple (Nat.lt_of_not_le hxy)
          simp only [beq_iff_eq]
          omega
        simp [List.filter_cons, hxn, hempty]
      · simp [List.filter_cons, hxn]

/-- Folding the insertion over a list, starting from a sorted accumulator,
keeps the result sorted by count, descending. -/
theorem sort_fold_pairwise (l : List (String × Nat)) :
    ∀ acc, acc.Pairwise (fun a b => b.2 ≤ a.2) →
      (List.foldl (fun acc x => insert_by_count_desc x acc) acc l).Pairwise
        (fun a b => b.2 ≤ a.2) := by
  induction l with
  | nil => intro acc h; exact h
  | cons x xs ih =>
    intro acc h
    exact ih (insert_by_count_desc x acc) (insert_by_count_desc_pairwise x acc h)

/-- Folding the insertion preserves each count class in order: the class of
`n` in the result is the class of `n` in the accumulator followed by the class
of `n` in the input, in input order.  This is Python's sort stability. -/
theorem sort_fold_filter (n : Nat) (l : List (String × Nat)) :
    ∀ acc, acc.Pairwise (fun a b => b.2 ≤ a.2) →
      (List.foldl (fun acc x => insert_by_count_desc x acc) acc l).filter (fun p => p.2 == n) =
        acc.filter (fun p => p.2 == n) ++ l.filter (fun p => p.2 == n) := by
  induction l with
  | nil => intro acc _; simp
  | cons x xs ih =>
    intro acc h
    rw [List.foldl_cons, ih (insert_by_count_desc x acc) (insert_by_count_desc_pairwise x acc h),
      insert_by_count_desc_filter n x acc h, List.filter_cons]
    by_cases hxn : (x.2 == n) = true
    · simp [hxn]
    · simp [hxn]

/-- Membership through the fold. -/
theorem sort_fold_mem (l : List (String × Nat)) :
    ∀ acc p, p ∈ List.foldl (fun acc x => insert_by_count_desc x acc) acc l ↔
      p ∈ acc ∨ p ∈ l := by
  induction l with
  | nil => intro acc p; simp
  | cons x xs ih =>
    intro acc p
    rw [List.foldl_cons, ih]
    rw [insert_by_count_desc_mem]
    simp
    tauto

/-- Length through the fold. -/
theorem sort_fold_length (l : List (String × Nat)) :
    ∀ acc, (List.foldl (fun acc x => insert_by_count_desc x acc) acc l).length =
      acc.length + l.length := by
  induction l with
  | nil => intro acc; simp
  | cons x xs ih =>
    intro acc
    rw [List.foldl_cons, ih, insert_by_count_desc_length]
    simp only [List.length_cons]
    omega

/-- The keys of the distribution after one update: unchanged when the family
is already present, appended otherwise. -/
theorem update_family_counts_keys (acc : List (String × Nat)) (code : String) :
    (update_family_counts acc code).map Prod.fst =
      if extract_root_family code ∈ acc.map Prod.fst then acc.map Prod.fst
      else acc.map Prod.fst ++ [extract_root_family code] := by
  unfold update_family_counts
  by_cases hmem : extract_root_family code ∈ acc.map Prod.fst
  · have hany : (acc.any (fun p => p.1 == extract_root_family code)) = true := by
      rw [List.any_eq_true]
      rcases List.mem_map.mp hmem with ⟨p, hp, hfst⟩
      exact ⟨p, hp, by simpa using hfst⟩
    rw [if_pos hany, if_pos hmem, List.map_map]
    apply List.map_congr_left
    intro p _
    by_cases hp : p.1 = extract_root_family code <;> simp [hp]
  · have hany : (acc.any (fun p => p.1 == extract_root_family code)) = false := by
      rw [List.any_eq_false]
      intro p hp
      simp only [beq_iff_eq]
      intro hfst
      exact hmem (List.mem_map.mpr ⟨p, hp, hfst⟩)
    rw [if_neg (by simp [hany]), if_neg hmem]
    simp

/-- One update keeps the keys distinct. -/
theorem update_family_counts_keys_nodup (acc : List (String × Nat)) (code : String)
    (h : (acc.map Prod.fst).Nodup) : ((update_family_counts acc code).map Prod.fst).Nodup := by
  rw [update_family_counts_keys]
  by_cases hmem : extract_root_family code ∈ acc.map Prod.fst
  · rwa [if_pos hmem]
  · rw [if_neg hmem]
    simp [List.nodup_append, h, hmem]

/-- Key membership through the distribution fold. -/
theorem fold_update_keys_mem (codes : List String) :
    ∀ (acc : List (String × Nat)) (a : String),
      (a ∈ (List.foldl update_family_counts acc codes).map Prod.fst) ↔
        a ∈ acc.map Prod.fst ∨ a ∈ codes.map extract_root_family := by
  induction codes with
  | nil => intro acc a; simp
  | cons c cs ih =>
    intro acc a
    rw [List.foldl_cons, ih, update_family_counts_keys]
    by_cases hmem : extract_root_family c ∈ acc.map Prod.fst
    · rw [if_pos hmem]
      simp only [List.map_cons, List.mem_cons]
      constructor
      · tauto
      · rintro (h | rfl | h)
        · tauto
        · tauto
        · tauto
    · rw [if_neg hmem]
      simp only [List.map_cons, List.mem_cons, List.mem_append, List.mem_singleton]
      tauto

/-- Key distinctness through the distribution fold. -/
theorem fold_update_keys_nodup (codes : List String) :
    ∀ (acc : List (String × Nat)), (acc.map Prod.fst).Nodup →
      ((List.foldl update_family_counts acc codes).map Prod.fst).Nodup := by
  induction codes with
  | nil => intro acc h; exact h
  | cons c cs ih =>
    intro acc h
    exact ih (update_family_counts acc c) (update_family_counts_keys_nodup acc c h)

/-- A family key occurs in the distribution exactly when it is the root family
of one of the codes. -/
theorem analyze_keys_mem (codes : List String) (a : String) :
    a ∈ (analyze_root_family_distribution codes).map Prod.fst ↔
      a ∈ codes.map extract_root_family := by
  have h := fold_update_keys_mem codes [] a
  simpa [analyze_root_family_distribution] using h

/-- The distribution has one entry per distinct root family. -/
theorem analyze_length (codes : List String) :
    (analyze_root_family_distribution codes).length =
      (codes.map extract_root_family).dedup.length := by
  have hnodup : ((analyze_root_family_distribution codes).map Prod.fst).Nodup :=
    fold_update_keys_nodup codes [] (by simp)
  calc (analyze_root_family_distribution codes).length
      = ((analyze_root_family_distribution codes).map Prod.fst).length := by
        rw [List.length_map]
    _ = ((analyze_root_family_distribution codes).map Prod.fst).toFinset.card :=
        (List.toFinset_card_of_nodup hnodup).symm
    _ = (codes.map extract_root_family).toFinset.card := by
        congr 1
        ext a
        rw [List.mem_toFinset, List.mem_toFinset]
        exact analyze_keys_mem codes a
    _ = (codes.map extract_root_family).dedup.length := by
        rw [List.card_toFinset]

/-- C7: the Root-Family Policy Validator never adds codes — its output is an
order-preserving sublist of its input — and when the input spans at most
`MAX_ROOT_FAMILIES` distinct root families the output is the input unchanged. -/
theorem C7_validator_never_adds (codes : List String) :
    (validate_root_family_focus codes).Sublist codes ∧
    ((codes.map extract_root_family).dedup.length ≤ MAX_ROOT_FAMILIES →
      validate_root_family_focus codes = codes) := by
  constructor
  · unfold validate_root_family_focus
    split
    · next h => subst h; exact List.Sublist.refl []
    · exact List.filter_sublist _
  · intro hk
    unfold validate_root_family_focus
    split
    · next h => exact h.symm
    · next h =>
      dsimp only
      apply List.filter_eq_self.mpr
      intro code hcode
      rw [decide_eq_true_eq]
      have hlen : (sort_families_desc (analyze_root_family_distribution codes)).length =
          (analyze_root_family_distribution codes).length := by
        unfold sort_families_desc
        rw [sort_fold_length]
        simp
      have hle6 : (sort_families_desc (analyze_root_family_distribution codes)).length ≤
          MAX_ROOT_FAMILIES := by
        rw [hlen, analyze_length]
        exact hk
      rw [List.take_of_length_le hle6]
      have hfam : extract_root_family code ∈
          (analyze_root_family_distribution codes).map Prod.fst :=
        (analyze_keys_mem codes _).mpr (List.mem_map_of_mem _ hcode)
      rcases List.mem_map.mp hfam with ⟨p, hp, hfst⟩
      refine List.mem_map.mpr ⟨p, ?_, hfst⟩
      unfold sort_families_desc
      rw [sort_fold_mem]
      exact Or.inr hp

/-- C3 (amended): the validator sorts the family distribution descending by
count with ties kept in first-occurrence order (Python's stable sort), and
keeps exactly the codes whose family is among the top `MAX_ROOT_FAMILIES`
entries of that ordering. -/
theorem C3_stable_sort_amended (codes : List String) :
    (sort_families_desc (analyze_root_family_distribution codes)).Pairwise
      (fun a b => b.2 ≤ a.2) ∧
    (∀ n : Nat,
      (sort_families_desc (analyze_root_family_distribution codes)).filter
        (fun p => p.2 == n) =
      (analyze_root_family_distribution codes).filter (fun p => p.2 == n)) ∧
    validate_root_family_focus codes =
      if codes = [] then []
      else codes.filter (fun code => extract_root_family code ∈
        ((sort_families_desc (analyze_root_family_distribution codes)).take
          MAX_ROOT_FAMILIES).map (fun p => p.1)) := by
  refine ⟨?_, ?_, ?_⟩
  · unfold sort_families_desc
    exact sort_fold_pairwise _ [] List.Pairwise.nil
  · intro n
    unfold sort_families_desc
    rw [sort_fold_filter n _ [] List.Pairwise.nil]
    simp
  · rfl

/-- C3 (counterexample): seven families of one code each, listed with their
families in descending alphabetical order.  The claimed alphabetical tie-break
would keep the `A01` code and drop the `G01` one; the code's stable
insertion-order tie-break keeps `G01` through `B01` and drops `A01`. -/
theorem C3_tie_break_counterexample :
    validate_root_family_focus c3_codes = ["G01", "F01", "E01", "D01", "C01", "B01"] ∧
    "A01" ∉ validate_root_family_focus c3_codes ∧
    "A01" ∈ spec_validate_root_family_focus c3_codes ∧
    validate_root_family_focus c3_codes ≠ spec_validate_root_family_focus c3_codes := by
  decide

/-! ### Score-bound lemmas -/

/-- Rounding a clamped value stays in the unit interval and is a multiple of
one thousandth. -/
theorem round3_clamp_bounds (s : ℚ) :
    0 ≤ round3 (max 0 (min 1 s)) ∧ round3 (max 0 (min 1 s)) ≤ 1 ∧
    ∃ n : ℤ, round3 (max 0 (min 1 s)) = (n : ℚ) / 1000 := by
  have hy0 : (0 : ℚ) ≤ max 0 (min 1 s) := le_max_left _ _
  have hy1 : max 0 (min 1 s) ≤ 1 := max_le (by norm_num) (min_le_left _ _)
  set y := max 0 (min 1 s) with hy
  unfold round3
  have hfl0 : (0 : ℤ) ≤ ⌊1000 * y + 1 / 2⌋ := by
    apply Int.le_floor.mpr
    push_cast
    linarith
  have hfl1 : ⌊1000 * y + 1 / 2⌋ ≤ 1000 := by
    have hlt : ⌊1000 * y + 1 / 2⌋ < 1001 := by
      apply Int.floor_lt.mpr
      push_cast
      linarith
    omega
  refine ⟨?_, ?_, ⟨⌊1000 * y + 1 / 2⌋, rfl⟩⟩
  · apply div_nonneg _ (by norm_num)
    exact_mod_cast hfl0
  · rw [div_le_one (by norm_num : (0 : ℚ) < 1000)]
    exact_mod_cast hfl1

/-- The calibration pass always returns a rounded clamped value. -/
theorem normalize_confidence_score_shape (t : Taxonomy) (raw_score : ℚ) (code : String)
    (selected_codes : List String) :
    ∃ s, normalize_confidence_score t raw_score code selected_codes =
      round3 (max 0 (min 1 s)) :=
  ⟨_, rfl⟩

/-- Every successful run of the scorer body ends in the calibration pass. -/
theorem calc_confidence_body_ok_shape (t : Taxonomy) (code : String)
    (selected_codes : List String) (vector_candidates : List Candidate)
    (search_text : Option String) (s : ℚ)
    (h : calc_confidence_body t code selected_codes vector_candidates search_text = .ok s) :
    ∃ raw, s = normalize_confidence_score t raw code selected_codes := by
  unfold calc_confidence_body at h
  cases hsub : t.is_subcategory code with
  | none =>
    rw [hsub] at h
    simp at h
  | some sub =>
    rw [hsub] at h
    dsimp only at h
    by_cases hc : code ∈ selected_codes
    · rw [if_pos hc] at h
      dsimp only at h
      exact ⟨_, (Except.ok.inj h).symm⟩
    · rw [if_neg hc] at h
      dsimp only at h
      exact ⟨_, (Except.ok.inj h).symm⟩

/-- C6: the five-factor confidence score is always within [0, 1] and rounded
to 3 decimal places (a multiple of 1/1000), on the error path as well. -/
theorem C6_confidence_score_bounds (t : Taxonomy) (code : String)
    (selected_codes : List String) (vector_candidates : List Candidate)
    (search_text : Option String) :
    0 ≤ calculate_confidence_score t code selected_codes vector_candidates search_text ∧
    calculate_confidence_score t code selected_codes vector_candidates search_text ≤ 1 ∧
    ∃ n : ℤ, calculate_confidence_score t code selected_codes vector_candidates search_text =
      (n : ℚ) / 1000 := by
  unfold calculate_confidence_score
  cases hbody : calc_confidence_body t code selected_codes vector_candidates search_text with
  | error e =>
    dsimp only
    exact ⟨by norm_num, by norm_num, ⟨600, by norm_num⟩⟩
  | ok s =>
    dsimp only
    obtain ⟨raw, rfl⟩ :=
      calc_confidence_body_ok_shape t code selected_codes vector_candidates search_text s hbody
    obtain ⟨v, hv⟩ := normalize_confidence_score_shape t raw code selected_codes
    rw [hv]
    exact round3_clamp_bounds v

/-! ### Evaluation lemmas and claim theorems for the score assignment -/

/-- On the concrete run with selection `["A00.0"]`, the validation loop
attempts exactly one construction, with `c5_kwargs` as its arguments. -/
theorem c5_attempted_eq : attempted_kwargs taxA ["A00.0"] "" [] = [c5_kwargs] := rfl

/-- The legacy score of the selected subcategory `A00.0` is 0.95. -/
theorem c5_legacy_eval : calculate_confidence_score_legacy taxA "A00.0" ["A00.0"] = 19/20 := by
  simp [calculate_confidence_score_legacy, taxA]

/-- The five-factor score of `A00.0` on the same run is 0.84. -/
theorem c5_improved_eval :
    calculate_confidence_score taxA "A00.0" ["A00.0"] [] (some "") = 41/50 := by
  have hdot : ("A00.0".data.count '.') = 1 := by decide
  have hroot : is_root_code "A00.0" = false := by decide
  unfold calculate_confidence_score calc_confidence_body
  simp [taxA, vector_score_of, specificity_score_of, semantic_score_of, hdot, hroot,
    normalize_confidence_score, round3, min_def, max_def]
  norm_num

/-- C5 (counterexample): the claim that the `confidence_score` handed to each
final code is the five-factor score fails on the concrete run with selection
`["A00.0"]`: the argument passed is the legacy 0.95, not the five-factor
0.84. -/
theorem C5_assigned_score_counterexample :
    ¬ (∀ kw ∈ attempted_kwargs taxA ["A00.0"] "" [],
        kw.confidence_score =
          calculate_confidence_score taxA kw.icd_code ["A00.0"] [] (some "")) := by
  intro hall
  have h := hall c5_kwargs (by rw [c5_attempted_eq]; exact List.mem_singleton_self _)
  have h1 : c5_kwargs.confidence_score =
      calculate_confidence_score_legacy taxA "A00.0" ["A00.0"] := rfl
  have h2 : c5_kwargs.icd_code = "A00.0" := rfl
  rw [h1, h2, c5_legacy_eval, c5_improved_eval] at h
  norm_num at h

/-- C5 (amended): every construction the validation loop attempts passes the
legacy two-tier value as `confidence_score` and the five-factor value as the
undeclared extra field `improved_confidence_score`, so the construction is
rejected and no final code carries either score. -/
theorem C5_legacy_score_assigned (t : Taxonomy) (selected_codes : List String)
    (search_text : String) (vector_candidates : List Candidate) (kw : RefinedCodeKwargs)
    (hkw : kw ∈ attempted_kwargs t selected_codes search_text vector_candidates) :
    kw.confidence_score = calculate_confidence_score_legacy t kw.icd_code selected_codes ∧
    kw.improved_confidence_score =
      calculate_confidence_score t kw.icd_code selected_codes vector_candidates
        (some search_text) ∧
    mk_refined_code_validation kw = .error "Extra inputs are not permitted" := by
  unfold attempted_kwargs at hkw
  rw [List.mem_filterMap] at hkw
  obtain ⟨s, hs, hpick⟩ := hkw
  simp only [refinement_steps, List.mem_map] at hs
  obtain ⟨code, hcode, rfl⟩ := hs
  cases hv : t.is_valid_item code
  · simp [refine_one_code, hv] at hpick
  · cases hr : is_root_code code
    · cases hd : t.get_description code
      · simp [refine_one_code, hv, hr, hd] at hpick
      · simp only [refine_one_code, hv, hr, hd, Bool.not_true, Bool.false_eq_true, if_false,
          Option.some.injEq] at hpick
        subst hpick
        exact ⟨rfl, rfl, mk_refined_code_validation_rejects _⟩
    · simp [refine_one_code, hv, hr] at hpick

/-- Witness for the amended C5 at the concrete run with selection `["A00.0"]`. -/
theorem C5_legacy_score_assigned_witness :
    c5_kwargs.confidence_score =
      calculate_confidence_score_legacy taxA c5_kwargs.icd_code ["A00.0"] ∧
    c5_kwargs.improved_confidence_score =
      calculate_confidence_score taxA c5_kwargs.icd_code ["A00.0"] [] (some "") ∧
    mk_refined_code_validation c5_kwargs = .error "Extra inputs are not permitted" :=
  C5_legacy_score_assigned taxA ["A00.0"] "" [] c5_kwargs
    (by rw [c5_attempted_eq]; exact List.mem_singleton_self _)

/-! ### First-pass family containment (supporting C2 beyond the degenerate
empty final list) -/

/-- Membership through one set insertion. -/
theorem insert_new_mem (acc : List String) (code c : String)
    (h : c ∈ insert_new acc code) : c ∈ acc ∨ c = code := by
  unfold insert_new at h
  split at h
  · exact Or.inl h
  · rcases List.mem_append.mp h with h | h
    · exact Or.inl h
    · exact Or.inr (List.mem_singleton.mp h)

/-- Membership through folding the set insertion over a list. -/
theorem foldl_insert_new_mem (l : List String) :
    ∀ (acc : List String) (c : String), c ∈ List.foldl insert_new acc l →
      c ∈ acc ∨ c ∈ l := by
  induction l with
  | nil => intro acc c h; exact Or.inl h
  | cons x xs ih =>
    intro acc c h
    rw [List.foldl_cons] at h
    rcases ih (insert_new acc x) c h with h | h
    · rcases insert_new_mem acc x c h with h | rfl
      · exact Or.inl h
      · exact Or.inr (List.mem_cons_self _ _)
    · exact Or.inr (List.mem_cons_of_mem _ h)

/-- Every code collected in the first pass is an already-collected one, a
pending selected code, or a descendant from an allowed family. -/
theorem collect_hierarchy_codes_family_subset (t : Taxonomy) (allowed_families : List String) :
    ∀ (pending acc : List String) (c : String),
      c ∈ collect_hierarchy_codes t allowed_families pending acc →
      c ∈ acc ∨ c ∈ pending ∨ extract_root_family c ∈ allowed_families := by
  intro pending
  induction pending with
  | nil => intro acc c h; exact Or.inl h
  | cons code rest ih =>
    intro acc c h
    unfold collect_hierarchy_codes at h
    by_cases hv : t.is_valid_item code = true
    · rw [if_pos hv] at h
      dsimp only at h
      rcases ih _ c h with h1 | h1 | h1
      · rcases foldl_insert_new_mem _ _ c h1 with h2 | h2
        · have hacc : c ∈ acc ∨ c = code := by
            split at h2
            · exact insert_new_mem acc code c h2
            · split at h2
              · exact insert_new_mem acc code c h2
              · exact Or.inl h2
          rcases hacc with h3 | rfl
          · exact Or.inl h3
          · exact Or.inr (Or.inl (List.mem_cons_self _ _))
        · unfold family_filtered_descendants at h2
          have hprop := List.of_mem_filter h2
          rw [Bool.and_eq_true, decide_eq_true_eq] at hprop
          exact Or.inr (Or.inr hprop.1)
      · exact Or.inr (Or.inl (List.mem_cons_of_mem _ h1))
      · exact Or.inr (Or.inr h1)
    · rw [if_neg hv] at h
      rcases ih _ c h with h1 | h1 | h1
      · exact Or.inl h1
      · exact Or.inr (Or.inl (List.mem_cons_of_mem _ h1))
      · exact Or.inr (Or.inr h1)

/-- The pass-1 code set never leaves the root families of the selected codes —
the containment C2 states would hold even without the construction bug that
empties the final list. -/
theorem collect_hierarchy_codes_root_families (t : Taxonomy) (selected_codes : List String)
    (c : String)
    (h : c ∈ collect_hierarchy_codes t (extract_allowed_root_families selected_codes)
      selected_codes []) :
    extract_root_family c ∈ selected_codes.map extract_root_family := by
  rcases collect_hierarchy_codes_family_subset t _ selected_codes [] c h with h1 | h1 | h1
  · cases h1
  · exact List.mem_map_of_mem _ h1
  · exact h1
